import Mathlib

/-!
Shallow embedding of the order-processing core of `src/order_processor.py`
(class `SizeValidator` and class `OrderProcessor`), together with theorems
settling the specification claims about it.

Modelling conventions:
* Cell values read from the tabular input are modelled as `String`; a missing
  cell is modelled as the empty string (pandas `isna` and the `== ''` test in
  the source are collapsed into one emptiness test).
* A quantity cell is modelled as `Option Int`: `some n` when
  `pd.to_numeric` would parse the cell to the number `n`, and `none` when the
  cell is missing or non-numeric (so that `pd.to_numeric(..., errors="coerce")`
  followed by `fillna(0)` becomes `Option.getD 0`).
* The in-place column writes that `aggregate_orders` and `create_final_format`
  perform on the DataFrame passed to them (`df["Quantity"] = ...` and
  `aggregated_df["Base SKU"] = ...`) are made explicit: each of those two
  functions returns a pair whose first component is the state of its input
  collection after the call, and whose second component is the returned
  collection.
-/

/-- Python `str.strip`: drop leading and trailing whitespace. -/
def pyStrip (s : String) : String :=
  String.mk (((s.data.dropWhile Char.isWhitespace).reverse.dropWhile Char.isWhitespace).reverse)

/-- Python `str.lower` (ASCII, which covers every string the table holds). -/
def pyLower (s : String) : String := String.mk (s.data.map Char.toLower)

/-- Python `str.upper` (ASCII). -/
def pyUpper (s : String) : String := String.mk (s.data.map Char.toUpper)

/-- Boolean test that `n` begins the list `h` (used to build substring search). -/
def beginsWith : List Char → List Char → Bool
  | [], _ => true
  | _ :: _, [] => false
  | a :: as, b :: bs => a == b && beginsWith as bs

/-- Boolean substring test, `containsSub needle hay`: Python `needle in hay`. -/
def containsSub : List Char → List Char → Bool
  | n, [] => beginsWith n []
  | n, c :: rest => beginsWith n (c :: rest) || containsSub n rest

/-- Python `str.split("-")`: split a character list at every dash. -/
def splitDash : List Char → List (List Char)
  | [] => [[]]
  | c :: rest =>
    if c = '-' then [] :: splitDash rest
    else
      match splitDash rest with
      | [] => [[c]]
      | g :: gs => (c :: g) :: gs

/-- The class attribute `SizeValidator.SIZE_MAPPINGS`, verbatim from the source. -/
def SIZE_MAPPINGS : List (String × List String) := [
  ("XS", ["xs", "extra small", "extra-small", "x-small"]),
  ("S", ["s", "small"]),
  ("M", ["m", "medium", "med"]),
  ("L", ["l", "large"]),
  ("XL", ["xl", "extra large", "extra-large", "x-large"]),
  ("2XL", ["2xl", "xxl", "2x", "xx-large", "2xl", "double xl"]),
  ("3XL", ["3xl", "xxxl", "3x", "triple xl"]),
  ("4XL", ["4xl", "xxxxl", "4x"])]

/-- The key set of `SIZE_MAPPINGS` (the `size_str in cls.SIZE_MAPPINGS.keys()` test). -/
def canonicalKeys : List String := SIZE_MAPPINGS.map (fun p => p.1)

/-- The flattened reverse mapping `SIZE_LOOKUP` built at class creation time:
every variant, lowercased, paired with its standard size. -/
def VARIANT_TABLE : List (String × String) :=
  (SIZE_MAPPINGS.map (fun p => p.2.map (fun v => (pyLower v, p.1)))).flatten

/-- Lookup in the reverse mapping (`size_lower in cls.SIZE_LOOKUP`). -/
def SIZE_LOOKUP (v : String) : Option String :=
  (VARIANT_TABLE.find? (fun p => p.1 == v)).map (fun p => p.2)

/-- The regex `re.match(r"(\d+)\s*xl", size_lower)`: one or more leading
digits, then optional whitespace, then the literal `xl`; yields the digit
group. Greediness is immaterial because neither a digit nor `x` can extend a
whitespace run, so the deterministic reading below is exact. -/
def numericXLMatch (s : String) : Option String :=
  let digits := s.data.takeWhile Char.isDigit
  if digits.isEmpty then none
  else
    let rest := (s.data.dropWhile Char.isDigit).dropWhile Char.isWhitespace
    if beginsWith ['x', 'l'] rest then some (String.mk digits) else none

/-- The `numeric_match` branch of `normalize_size`: digit group 2, 3 or 4
resolves; any other digit group falls through to the substring heuristics. -/
def digitXL (sizeLower : String) : Option String :=
  match numericXLMatch sizeLower with
  | none => none
  | some num =>
    if num = "2" then some "2XL"
    else if num = "3" then some "3XL"
    else if num = "4" then some "4XL"
    else none

/-- The two substring checks at the end of `normalize_size`, in source order:
the `xxl`/`2xl` test runs before the `xxxl`/`3xl` test. -/
def substringHeuristic (sizeLower : String) : Option String :=
  if containsSub ("xxl".data) sizeLower.data || containsSub ("2xl".data) sizeLower.data then
    some "2XL"
  else if containsSub ("xxxl".data) sizeLower.data || containsSub ("3xl".data) sizeLower.data then
    some "3XL"
  else none

/-- `SizeValidator.normalize_size`, line for line: empty input, direct key
match on the stripped uppercase form, reverse-table lookup on the stripped
lowercase form, the digit-XL regex, then the substring heuristics. -/
def normalize_size (size : String) : Option String :=
  if size = "" then none
  else
    let sizeStr := pyUpper (pyStrip size)
    if sizeStr ∈ canonicalKeys then some sizeStr
    else
      let sizeLower := pyLower (pyStrip size)
      match SIZE_LOOKUP sizeLower with
      | some std => some std
      | none =>
        match digitXL sizeLower with
        | some c => some c
        | none => substringHeuristic sizeLower

/-- `SizeValidator.extract_size_from_sku`: split the stripped SKU on dashes
and, when there are at least two segments, normalize the stripped last one. -/
def extract_size_from_sku (sku : String) : Option String :=
  if sku = "" then none
  else
    let parts := (splitDash (pyStrip sku).data).map String.mk
    if 2 ≤ parts.length then normalize_size (pyStrip (parts.getLastD ""))
    else none

/-- `SizeValidator.validate_and_correct_row`: normalize the original size,
else recover from the concatenated SKU, else keep the original text (or the
literal `UNKNOWN` when it is empty) with status `REVIEW`. -/
def validate_and_correct_row (originalSize : String) (concatenatedSku : String) :
    String × String :=
  match normalize_size originalSize with
  | some n => (n, "OK")
  | none =>
    match extract_size_from_sku concatenatedSku with
    | some e => (e, "OK")
    | none => (if originalSize ≠ "" then originalSize else "UNKNOWN", "REVIEW")

/-- The `size_order` list of `create_final_format`; also the canonical size
set of the specification. -/
def size_order : List String := ["XS", "S", "M", "L", "XL", "2XL", "3XL", "4XL"]

/-- One input order line, after the (out-of-core) CSV combiner: the values of
the `Vendor Style`, `Size` and `Quantity` cells. -/
structure InputRow where
  vendorStyle : String
  size : String
  quantity : Option Int
deriving DecidableEq, Repr

/-- An input batch: the column set of the combined DataFrame plus its rows. -/
structure Batch where
  columns : List String
  rows : List InputRow
deriving DecidableEq, Repr

/-- A row after `concatenate_sku_size` added the `Concatenated SKU` column. -/
structure SkuRow where
  vendorStyle : String
  size : String
  quantity : Option Int
  concatenatedSku : String
deriving DecidableEq, Repr

/-- A row of the DataFrame built by `validate_and_correct_data`. -/
structure VRecord where
  finalSKU : String
  finalSize : String
  status : String
  quantity : Option Int
  origStyle : String
  origSize : String
deriving DecidableEq, Repr

/-- A row of the DataFrame returned by `aggregate_orders`; `base` is the
`Base SKU` column that `create_final_format` later writes into this frame
(absent, hence `none`, when the record is created). -/
structure ARecord where
  key : String
  total : Int
  size : String
  status : String
  base : Option String
deriving DecidableEq, Repr

/-- A row of the final wide DataFrame: the three leading text columns and the
size cells, kept in the column order the source selects. -/
structure SummaryRow where
  sku : String
  description : String
  inkColor : String
  cells : List Int
deriving DecidableEq, Repr

/-- The `required_cols` list of `concatenate_sku_size`. -/
def required_cols : List String := ["Vendor Style", "Size"]

/-- The message of the `ValueError` raised on missing columns, rendered as the
f-string `f"Missing required columns: {missing_cols}"` renders a list of
strings. -/
def missingColsMsg (missing : List String) : String :=
  "Missing required columns: [\x27" ++ String.intercalate "\x27, \x27" missing ++ "\x27]"

/-- `OrderProcessor.concatenate_sku_size`: fail the whole batch when a
required column is absent, otherwise add the `Concatenated SKU` column. -/
def concatenate_sku_size (b : Batch) : Except String (List SkuRow) :=
  let missing := required_cols.filter (fun c => !(decide (c ∈ b.columns)))
  if missing.isEmpty then
    .ok (b.rows.map (fun r =>
      { vendorStyle := r.vendorStyle, size := r.size, quantity := r.quantity,
        concatenatedSku := r.vendorStyle ++ "-" ++ r.size }))
  else .error (missingColsMsg missing)

/-- `OrderProcessor.validate_and_correct_data`: one `VRecord` per row, with
the final SKU rebuilt from the corrected size when the vendor style is
non-empty (Python truthiness of the style string). -/
def validate_and_correct_data (rows : List SkuRow) : List VRecord :=
  rows.map (fun r =>
    let res := validate_and_correct_row r.size r.concatenatedSku
    { finalSKU := if r.vendorStyle ≠ "" then r.vendorStyle ++ "-" ++ res.1
                  else r.concatenatedSku,
      finalSize := res.1,
      status := res.2,
      quantity := r.quantity,
      origStyle := r.vendorStyle,
      origSize := r.size })

/-- The quantity coercion `pd.to_numeric(..., errors="coerce").fillna(0)`. -/
def coerceQty (q : Option Int) : Int := q.getD 0

/-- Code-point lexicographic comparison of character lists, the order Python
and pandas use on strings. -/
def lexLe : List Char → List Char → Bool
  | [], _ => true
  | _ :: _, [] => false
  | a :: as, b :: bs =>
    if a.toNat < b.toNat then true
    else if b.toNat < a.toNat then false
    else lexLe as bs

/-- Code-point lexicographic order on strings. -/
def strLe (a b : String) : Prop := lexLe a.data b.data = true

instance : DecidableRel strLe := fun a b => instDecidableEqBool _ _

/-- Ascending string sort (the key order of `groupby` and `sort_values`). -/
def sortStr (l : List String) : List String := List.insertionSort strLe l

/-- `OrderProcessor.aggregate_orders`. First component: the state of the
input DataFrame after the call (its `Quantity` column was overwritten in
place with the coerced values). Second component: the grouped frame, one
record per distinct `Final SKU`, keys ascending, quantities summed, size
taken from the first member, status `REVIEW` as soon as one member is. -/
def aggregate_orders (l : List VRecord) : List VRecord × List ARecord :=
  let coerced := l.map (fun r => { r with quantity := some (coerceQty r.quantity) })
  let keys := sortStr ((coerced.map (fun r => r.finalSKU)).dedup)
  (coerced,
   keys.map (fun k =>
     let members := coerced.filter (fun r => r.finalSKU = k)
     { key := k,
       total := (members.map (fun r => coerceQty r.quantity)).sum,
       size := ((members.head?).map (fun r => r.finalSize)).getD "",
       status := if members.any (fun r => r.status = "REVIEW") then "REVIEW" else "OK",
       base := none }))

/-- The `Base SKU` derivation `key.split("-")[:-1]` joined with dashes. -/
def baseOfKey (k : String) : String :=
  String.intercalate "-" (((splitDash k.data).map String.mk).dropLast)

/-- One pivot cell: the summed `Total Quantity` of the aggregated records
whose `Base SKU` is `b` and whose `Size` column is `s` (the `aggfunc="sum"`
of the pivot, with `fill_value=0` realised by the empty sum). -/
def cellVal (l : List ARecord) (b s : String) : Int :=
  ((l.filter (fun a => baseOfKey a.key = b && a.size = s)).map (fun a => a.total)).sum

/-- The column set of the pivot frame after the ensure-loop of
`create_final_format`: the sizes that occur, then every canonical size that
was still missing, appended with value zero. -/
def ensuredCols (l : List ARecord) : List String :=
  let pivotCols := (l.map (fun a => a.size)).dedup
  pivotCols ++ size_order.filter (fun s => !(decide (s ∈ pivotCols)))

/-- The size columns `create_final_format` selects, in source order: the
canonical sizes filtered by presence in the pivot columns (line 365 and the
tail of `column_order` on line 389 perform the same selection). -/
def selectedSizeCols (l : List ARecord) : List String :=
  size_order.filter (fun s => decide (s ∈ ensuredCols l))

/-- The full `column_order` of the final frame. -/
def finalColumns (l : List ARecord) : List String :=
  ["SKU", "Description", "Ink Color"] ++ selectedSizeCols l

/-- `OrderProcessor.create_final_format`. First component: the state of the
aggregated input frame after the call (a `Base SKU` column was written into
it in place). Second component: the wide frame, one row per distinct base
SKU in ascending order, with the description and ink-color lookup of
`sku_info` (an absent entry, or an empty `sku_info`, yields empty strings)
and one cell per selected size column. -/
def create_final_format (l : List ARecord) (skuInfo : List (String × String × String)) :
    List ARecord × List SummaryRow :=
  let stateAfter := l.map (fun a => { a with base := some (baseOfKey a.key) })
  let bases := sortStr ((l.map (fun a => baseOfKey a.key)).dedup)
  let cols := selectedSizeCols l
  (stateAfter,
   bases.map (fun b =>
     { sku := b,
       description := ((skuInfo.find? (fun t => t.1 == b)).map (fun t => t.2.1)).getD "",
       inkColor := ((skuInfo.find? (fun t => t.1 == b)).map (fun t => t.2.2)).getD "",
       cells := cols.map (fun s => cellVal l b s) }))

/-- The fixed output header the specification states. -/
def specHeader : List String :=
  ["SKU", "Description", "Ink Color", "XS", "S", "M", "L", "XL", "2XL", "3XL", "4XL"]

/-- Sum of every size cell of a wide frame. -/
def sumAllCells (rows : List SummaryRow) : Int :=
  (rows.map (fun r => r.cells.sum)).sum

/-! Order-theoretic facts about the string order used by grouping and sorting. -/

theorem lexLe_total : ∀ a b, lexLe a b = true ∨ lexLe b a = true := by
  intro a
  induction a with
  | nil => intro b; left; rfl
  | cons x xs ih =>
    intro b
    cases b with
    | nil => right; rfl
    | cons y ys =>
      by_cases h1 : x.toNat < y.toNat
      · left; simp [lexLe, h1]
      · by_cases h2 : y.toNat < x.toNat
        · right; simp [lexLe, h2]
        · rcases ih ys with h | h
          · left; simp [lexLe, h1, h2, h]
          · right; simp [lexLe, h1, h2, h]

theorem lexLe_trans : ∀ a b c, lexLe a b = true → lexLe b c = true → lexLe a c = true := by
  intro a
  induction a with
  | nil => intro b c _ _; rfl
  | cons x xs ih =>
    intro b c hab hbc
    cases b with
    | nil => simp [lexLe] at hab
    | cons y ys =>
      cases c with
      | nil => simp [lexLe] at hbc
      | cons z zs =>
        simp only [lexLe] at hab hbc ⊢
        split at hab
        · rename_i h1
          split at hbc
          · rename_i h2
            have : x.toNat < z.toNat := Nat.lt_trans h1 h2
            simp [this]
          · split at hbc
            · exact absurd hbc (by simp)
            · rename_i h2 h3
              have hyz : y.toNat = z.toNat := by omega
              have : x.toNat < z.toNat := hyz ▸ h1
              simp [this]
        · split at hab
          · exact absurd hab (by simp)
          · rename_i h1 h2
            have hxy : x.toNat = y.toNat := by omega
            split at hbc
            · rename_i h3
              have : x.toNat < z.toNat := hxy ▸ h3
              simp [this]
            · split at hbc
              · exact absurd hbc (by simp)
              · rename_i h3 h4
                have hyz : y.toNat = z.toNat := by omega
                have e : x.toNat = z.toNat := hxy.trans hyz
                simp [Nat.not_lt.mpr (Nat.le_of_eq e), Nat.not_lt.mpr (Nat.le_of_eq e.symm),
                  ih ys zs hab hbc]

instance : IsTotal String strLe := ⟨fun a b => lexLe_total a.data b.data⟩

instance : IsTrans String strLe := ⟨fun a b c => lexLe_trans a.data b.data c.data⟩

theorem sortStr_sorted (l : List String) : (sortStr l).Sorted strLe :=
  List.sorted_insertionSort strLe l

theorem sortStr_mem {l : List String} {a : String} : a ∈ sortStr l ↔ a ∈ l :=
  List.mem_insertionSort strLe

theorem sortStr_nodup {l : List String} (h : l.Nodup) : (sortStr l).Nodup :=
  (List.perm_insertionSort strLe l).nodup_iff.mpr h

/-! Canonical-membership facts about the size resolution chain. -/

theorem SIZE_LOOKUP_mem {v c : String} (h : SIZE_LOOKUP v = some c) : c ∈ size_order := by
  unfold SIZE_LOOKUP at h
  cases hf : VARIANT_TABLE.find? (fun p => p.1 == v) with
  | none => rw [hf] at h; exact absurd h (by simp)
  | some p =>
    rw [hf] at h
    have hp : p ∈ VARIANT_TABLE := List.mem_of_find?_eq_some hf
    have hall : ∀ q ∈ VARIANT_TABLE, q.2 ∈ size_order := by decide
    have : p.2 = c := by simpa using h
    exact this ▸ hall p hp

theorem digitXL_mem {s c : String} (h : digitXL s = some c) : c ∈ size_order := by
  unfold digitXL at h
  cases hm : numericXLMatch s with
  | none => rw [hm] at h; exact absurd h (by simp)
  | some num =>
    rw [hm] at h
    by_cases h2 : num = "2"
    · simp [h2] at h; simp [← h, size_order]
    · by_cases h3 : num = "3"
      · simp [h2, h3] at h; simp [← h, size_order]
      · by_cases h4 : num = "4"
        · simp [h2, h3, h4] at h; simp [← h, size_order]
        · simp [h2, h3, h4] at h

theorem substringHeuristic_mem {s c : String} (h : substringHeuristic s = some c) :
    c ∈ size_order := by
  unfold substringHeuristic at h
  split at h
  · simp at h; simp [← h, size_order]
  · split at h
    · simp at h; simp [← h, size_order]
    · exact absurd h (by simp)

theorem normalize_size_mem {s c : String} (h : normalize_size s = some c) : c ∈ size_order := by
  unfold normalize_size at h
  dsimp only at h
  split at h
  · exact absurd h (by simp)
  · split at h
    · rename_i hmem
      have : pyUpper (pyStrip s) = c := by simpa using h
      rw [← this]
      simpa [canonicalKeys, size_order, SIZE_MAPPINGS] using hmem
    · split at h
      · rename_i std hl
        have : std = c := by simpa using h
        exact this ▸ SIZE_LOOKUP_mem hl
      · split at h
        · rename_i d hd
          have : d = c := by simpa using h
          exact this ▸ digitXL_mem hd
        · exact substringHeuristic_mem h

theorem extract_size_from_sku_mem {s c : String} (h : extract_size_from_sku s = some c) :
    c ∈ size_order := by
  unfold extract_size_from_sku at h
  dsimp only at h
  split at h
  · exact absurd h (by simp)
  · split at h
    · exact normalize_size_mem h
    · exact absurd h (by simp)

theorem validate_row_status (os k : String) :
    (validate_and_correct_row os k).2 = "OK" ∨ (validate_and_correct_row os k).2 = "REVIEW" := by
  unfold validate_and_correct_row
  cases normalize_size os with
  | some n => left; rfl
  | none =>
    cases extract_size_from_sku k with
    | some e => left; rfl
    | none => right; rfl

theorem validate_row_eq_of_normalize {os k n : String} (hn : normalize_size os = some n) :
    validate_and_correct_row os k = (n, "OK") := by
  unfold validate_and_correct_row
  rw [hn]

theorem validate_row_eq_of_extract {os k e : String} (hn : normalize_size os = none)
    (he : extract_size_from_sku k = some e) :
    validate_and_correct_row os k = (e, "OK") := by
  unfold validate_and_correct_row
  rw [hn, he]

theorem validate_row_eq_of_fail {os k : String} (hn : normalize_size os = none)
    (he : extract_size_from_sku k = none) :
    validate_and_correct_row os k = (if os ≠ "" then os else "UNKNOWN", "REVIEW") := by
  unfold validate_and_correct_row
  rw [hn, he]

theorem validate_row_ok_mem {os k : String}
    (h : (validate_and_correct_row os k).2 = "OK") :
    (validate_and_correct_row os k).1 ∈ size_order := by
  cases hn : normalize_size os with
  | some n =>
    rw [validate_row_eq_of_normalize hn]
    exact normalize_size_mem hn
  | none =>
    cases he : extract_size_from_sku k with
    | some e =>
      rw [validate_row_eq_of_extract hn he]
      exact extract_size_from_sku_mem he
    | none =>
      rw [validate_row_eq_of_fail hn he] at h
      exact absurd h (by simp)

/-! Dash-suffix injectivity: canonical sizes hold no dash, so the size part
of a rebuilt composite key is recoverable. -/

theorem noDash_append_inj :
    ∀ (s1 : List Char) {s2 f1 f2 : List Char}, '-' ∉ f1 → '-' ∉ f2 →
      s1 ++ '-' :: f1 = s2 ++ '-' :: f2 → f1 = f2 := by
  intro s1
  induction s1 with
  | nil =>
    intro s2 f1 f2 h1 h2 heq
    cases s2 with
    | nil => simpa using heq
    | cons d s2t =>
      simp only [List.nil_append, List.cons_append, List.cons.injEq] at heq
      exact absurd (heq.2 ▸ List.mem_append_right s2t (List.mem_cons_self '-' f2)) h1
  | cons c s1t ih =>
    intro s2 f1 f2 h1 h2 heq
    cases s2 with
    | nil =>
      simp only [List.cons_append, List.nil_append, List.cons.injEq] at heq
      exact absurd (heq.2 ▸ List.mem_append_right s1t (List.mem_cons_self '-' f1)) h2
    | cons d s2t =>
      simp only [List.cons_append, List.cons.injEq] at heq
      exact ih h1 h2 heq.2

theorem size_order_noDash : ∀ c ∈ size_order, '-' ∉ c.data := by decide

theorem string_dash_inj {a b f g : String} (hf : '-' ∉ f.data) (hg : '-' ∉ g.data)
    (h : a ++ "-" ++ f = b ++ "-" ++ g) : f = g := by
  have hd : a.data ++ '-' :: f.data = b.data ++ '-' :: g.data := by
    have := congrArg String.data h
    simpa [String.data_append] using this
  have := noDash_append_inj a.data hf hg hd
  cases f; cases g; exact congrArg String.mk this

/-! Summation helpers for the pivot accounting. -/

theorem sum_map_zero {α : Type} (l : List α) : (l.map (fun _ => (0 : Int))).sum = 0 := by
  induction l with
  | nil => rfl
  | cons a t ih => simpa using ih

theorem sum_map_single {α : Type} [DecidableEq α] (S : List α) (hS : S.Nodup) (a : α) (x : Int) :
    (S.map (fun s => if s = a then x else 0)).sum = if a ∈ S then x else 0 := by
  induction S with
  | nil => simp
  | cons c S' ih =>
    have hc : c ∉ S' := (List.nodup_cons.mp hS).1
    have hS' : S'.Nodup := (List.nodup_cons.mp hS).2
    by_cases hca : c = a
    · subst hca
      have : (S'.map (fun s => if s = c then x else 0)).sum = 0 := by
        rw [List.map_congr_left (fun s hs => if_neg (fun h : s = c => hc (h ▸ hs)))]
        exact sum_map_zero S'
      simp [this]
    · simp only [List.map_cons, List.sum_cons, if_neg hca, ih hS', List.mem_cons]
      have hac : ¬(a = c) := fun h => hca h.symm
      simp [hac]

theorem filter_cons_sum {α : Type} (w : α → Int) (p : α → Bool) (r : α) (t : List α) :
    (((r :: t).filter p).map w).sum = (if p r then w r else 0) + ((t.filter p).map w).sum := by
  by_cases h : p r = true
  · simp [List.filter_cons, h]
  · simp only [Bool.not_eq_true] at h
    simp [List.filter_cons, h]

theorem double_filter_sum {α : Type} (w : α → Int) (f g : α → String) :
    ∀ (l : List α) (B S : List String), B.Nodup → S.Nodup → (∀ a ∈ l, f a ∈ B) →
    (B.map (fun b => (S.map (fun s =>
        ((l.filter (fun a => f a = b && g a = s)).map w).sum)).sum)).sum
      = ((l.filter (fun a => decide (g a ∈ S))).map w).sum := by
  intro l
  induction l with
  | nil =>
    intro B S _ _ _
    simp only [List.filter_nil, List.map_nil, List.sum_nil, sum_map_zero]
  | cons r t ih =>
    intro B S hB hS hcov
    have hfr : f r ∈ B := hcov r (List.mem_cons_self r t)
    have hcov' : ∀ a ∈ t, f a ∈ B := fun a ha => hcov a (List.mem_cons_of_mem r ha)
    have cellsplit : ∀ b s, (((r :: t).filter (fun a => f a = b && g a = s)).map w).sum
        = (if (b = f r ∧ s = g r) then w r else 0)
          + ((t.filter (fun a => f a = b && g a = s)).map w).sum := by
      intro b s
      rw [filter_cons_sum]
      by_cases h1 : f r = b
      · by_cases h2 : g r = s
        · simp [h1, h2]
        · have h2s : ¬(s = g r) := fun h => h2 h.symm
          simp [h1, h2, h2s]
      · have h1s : ¬(b = f r) := fun h => h1 h.symm
        simp [h1, h1s]
    have phiSum : ∀ b, (S.map (fun s => if (b = f r ∧ s = g r) then w r else 0)).sum
        = if b = f r then (if g r ∈ S then w r else 0) else 0 := by
      intro b
      by_cases hb : b = f r
      · have he : (S.map (fun s => if (b = f r ∧ s = g r) then w r else 0))
            = (S.map (fun s => if s = g r then w r else 0)) :=
          List.map_congr_left (fun s _ => by simp [hb])
        rw [he, sum_map_single S hS (g r) (w r), if_pos hb]
      · have he : (S.map (fun s => if (b = f r ∧ s = g r) then w r else 0))
            = (S.map (fun _ => (0 : Int))) :=
          List.map_congr_left (fun s _ => by simp [hb])
        rw [he, sum_map_zero, if_neg hb]
    have inner_eq : ∀ b,
        (S.map (fun s => (((r :: t).filter (fun a => f a = b && g a = s)).map w).sum)).sum
        = (if b = f r then (if g r ∈ S then w r else 0) else 0)
          + (S.map (fun s => ((t.filter (fun a => f a = b && g a = s)).map w).sum)).sum := by
      intro b
      have he : (S.map (fun s => (((r :: t).filter (fun a => f a = b && g a = s)).map w).sum))
          = (S.map (fun s => (if (b = f r ∧ s = g r) then w r else 0)
              + ((t.filter (fun a => f a = b && g a = s)).map w).sum)) :=
        List.map_congr_left (fun s _ => cellsplit b s)
      rw [he, List.sum_map_add, phiSum b]
    have outer1 : (B.map (fun b =>
        (S.map (fun s => (((r :: t).filter (fun a => f a = b && g a = s)).map w).sum)).sum))
        = (B.map (fun b =>
          (if b = f r then (if g r ∈ S then w r else 0) else 0)
          + (S.map (fun s => ((t.filter (fun a => f a = b && g a = s)).map w).sum)).sum)) :=
      List.map_congr_left (fun b _ => inner_eq b)
    rw [outer1, List.sum_map_add, sum_map_single B hB (f r) _, if_pos hfr, ih B S hB hS hcov',
      filter_cons_sum w (fun a => decide (g a ∈ S)) r t]
    by_cases hg : g r ∈ S <;> simp [hg]

/-! Facts about the pivot stage. -/

theorem selectedSizeCols_eq (l : List ARecord) : selectedSizeCols l = size_order := by
  unfold selectedSizeCols
  apply List.filter_eq_self.mpr
  intro s hs
  simp only [decide_eq_true_eq]
  show s ∈ (l.map (fun a => a.size)).dedup
      ++ size_order.filter (fun s => !(decide (s ∈ (l.map (fun a => a.size)).dedup)))
  by_cases hp : s ∈ (l.map (fun a => a.size)).dedup
  · exact List.mem_append_left _ hp
  · exact List.mem_append_right _ (List.mem_filter.mpr ⟨hs, by simpa using hp⟩)

theorem finalColumns_eq (l : List ARecord) : finalColumns l = specHeader := by
  unfold finalColumns specHeader
  rw [selectedSizeCols_eq]
  rfl

theorem create_final_format_rows (l : List ARecord) (info : List (String × String × String)) :
    (create_final_format l info).2
      = (sortStr ((l.map (fun a => baseOfKey a.key)).dedup)).map (fun b =>
          { sku := b,
            description := ((info.find? (fun t => t.1 == b)).map (fun t => t.2.1)).getD "",
            inkColor := ((info.find? (fun t => t.1 == b)).map (fun t => t.2.2)).getD "",
            cells := size_order.map (fun s => cellVal l b s) }) := by
  unfold create_final_format
  simp only [selectedSizeCols_eq]

theorem bases_nodup (l : List ARecord) :
    (sortStr ((l.map (fun a => baseOfKey a.key)).dedup)).Nodup :=
  sortStr_nodup (List.nodup_dedup _)

theorem bases_cover (l : List ARecord) :
    ∀ a ∈ l, baseOfKey a.key ∈ sortStr ((l.map (fun a => baseOfKey a.key)).dedup) :=
  fun a ha => sortStr_mem.mpr (List.mem_dedup.mpr (List.mem_map_of_mem _ ha))

theorem size_order_nodup : size_order.Nodup := by decide

set_option maxHeartbeats 1000000 in
theorem pivot_sum_eq (l : List ARecord) (info : List (String × String × String)) :
    sumAllCells (create_final_format l info).2
      = ((l.filter (fun a => decide (a.size ∈ size_order))).map (fun a => a.total)).sum := by
  rw [create_final_format_rows]
  unfold sumAllCells
  rw [List.map_map]
  have h := double_filter_sum (fun a => a.total) (fun a => baseOfKey a.key) (fun a => a.size)
    l (sortStr ((l.map (fun a => baseOfKey a.key)).dedup)) size_order
    (bases_nodup l) size_order_nodup (bases_cover l)
  simpa [cellVal, Function.comp] using h

/-! Facts about the aggregation stage. -/

theorem map_eq_self {α : Type} {f : α → α} :
    ∀ {l : List α}, l.map f = l ↔ ∀ x ∈ l, f x = x := by
  intro l
  induction l with
  | nil => simp
  | cons a t ih =>
    constructor
    · intro h
      have h1 : f a = a := (List.cons.injEq _ _ _ _ ▸ h).1
      have h2 : t.map f = t := (List.cons.injEq _ _ _ _ ▸ h).2
      intro x hx
      rcases List.mem_cons.mp hx with rfl | hx'
      · exact h1
      · exact ih.mp h2 x hx'
    · intro h
      simp only [List.map_cons, h a (List.mem_cons_self a t)]
      rw [ih.mpr (fun x hx => h x (List.mem_cons_of_mem a hx))]

theorem coerced_map_finalSKU (l : List VRecord) :
    (l.map (fun r => { r with quantity := some (coerceQty r.quantity) })).map
        (fun r => r.finalSKU)
      = l.map (fun r => r.finalSKU) := by
  rw [List.map_map]
  rfl

theorem coerced_filter (l : List VRecord) (k : String) :
    (l.map (fun r => { r with quantity := some (coerceQty r.quantity) })).filter
        (fun r => r.finalSKU = k)
      = (l.filter (fun r => r.finalSKU = k)).map
          (fun r => { r with quantity := some (coerceQty r.quantity) }) := by
  rw [List.filter_map]
  rfl

theorem aggregate_orders_snd (l : List VRecord) :
    (aggregate_orders l).2
      = (sortStr ((l.map (fun r => r.finalSKU)).dedup)).map (fun k =>
          { key := k,
            total := ((l.filter (fun r => r.finalSKU = k)).map
                (fun r => coerceQty r.quantity)).sum,
            size := (((l.filter (fun r => r.finalSKU = k)).head?).map
                (fun r => r.finalSize)).getD "",
            status := if (l.filter (fun r => r.finalSKU = k)).any
                (fun r => r.status = "REVIEW") then "REVIEW" else "OK",
            base := none }) := by
  unfold aggregate_orders
  dsimp only
  rw [coerced_map_finalSKU]
  apply List.map_congr_left
  intro k _
  rw [coerced_filter]
  congr 1
  · rw [List.map_map]
    rfl
  · rw [List.head?_map]
    cases (l.filter (fun r => r.finalSKU = k)).head? <;> rfl
  · rw [List.any_map]
    rfl

theorem aggregate_orders_fst (l : List VRecord) :
    (aggregate_orders l).1
      = l.map (fun r => { r with quantity := some (coerceQty r.quantity) }) := rfl

/-- C1 (amended): for every aggregated input and style lookup, the sum of all
size cells of the wide output equals the sum of totalQuantity over the
aggregated records whose size is one of the eight canonical tokens; records
whose size is a non-canonical REVIEW fallback are excluded, because line 365
of the source keeps only canonical size columns of the pivot. -/
theorem C1_pivot_totals (l : List ARecord) (info : List (String × String × String)) :
    sumAllCells (create_final_format l info).2
      = ((l.filter (fun a => decide (a.size ∈ size_order))).map (fun a => a.total)).sum :=
  pivot_sum_eq l info

/-- C1 counterexample: a batch holding one REVIEW row with the non-canonical
size `purple` and quantity 5 aggregates to totalQuantity 5, yet every size
cell of the wide output is 0, so the claimed equality of the two sums fails. -/
theorem C1_counterexample :
    (aggregate_orders (validate_and_correct_data
        [{ vendorStyle := "TEE", size := "purple", quantity := some 5,
           concatenatedSku := "TEE-purple" }])).2
      = [{ key := "TEE-purple", total := 5, size := "purple", status := "REVIEW", base := none }]
    ∧ sumAllCells (create_final_format
        [{ key := "TEE-purple", total := 5, size := "purple", status := "REVIEW", base := none }]
        []).2 = 0
    ∧ (([{ key := "TEE-purple", total := 5, size := "purple", status := "REVIEW",
           base := none }] : List ARecord).map (fun a => a.total)).sum = 5
    ∧ (0 : Int) ≠ 5 := by
  refine ⟨by decide, by decide, by decide, by decide⟩

/-- C8: the final column list is exactly SKU, Description, Ink Color followed
by the eight canonical sizes in order, whatever sizes occur in the input, and
every output row carries one cell per canonical size, a size with no matching
aggregated rows contributing 0. -/
theorem C8_pivot_columns (l : List ARecord) (info : List (String × String × String)) :
    finalColumns l = specHeader
    ∧ ∀ row ∈ (create_final_format l info).2,
        row.cells = size_order.map (fun s => cellVal l row.sku s)
        ∧ ∀ s ∈ size_order, (∀ a ∈ l, ¬(baseOfKey a.key = row.sku ∧ a.size = s)) →
            cellVal l row.sku s = 0 := by
  refine ⟨finalColumns_eq l, ?_⟩
  intro row hrow
  rw [create_final_format_rows] at hrow
  obtain ⟨b, _, rfl⟩ := List.mem_map.mp hrow
  refine ⟨rfl, ?_⟩
  intro s _ hnone
  show cellVal l b s = 0
  unfold cellVal
  have hnil : (l.filter (fun a => baseOfKey a.key = b && a.size = s)) = [] := by
    apply List.filter_eq_nil_iff.mpr
    intro a ha hc
    exact hnone a ha (by simpa using hc)
  rw [hnil]
  rfl

/-- C8 witness: instantiated at a single aggregated record of size M, the row
for style TEE-101 carries all eight cells, the M cell 8 and the others 0. -/
theorem C8_witness :
    ({ sku := "TEE-101", description := "", inkColor := "",
       cells := [0, 0, 8, 0, 0, 0, 0, 0] } : SummaryRow).cells
      = size_order.map (fun s => cellVal
          [{ key := "TEE-101-M", total := 8, size := "M", status := "OK", base := none }]
          "TEE-101" s) := by
  have h := (C8_pivot_columns
    [{ key := "TEE-101-M", total := 8, size := "M", status := "OK", base := none }] []).2
    { sku := "TEE-101", description := "", inkColor := "",
      cells := [0, 0, 8, 0, 0, 0, 0, 0] } (by decide)
  exact h.1

/-- C3 (amended): unconditionally, a missing or non-numeric quantity coerces
to 0, a numeric quantity (negative ones included) passes through the coercion
unchanged, and every row still reaches an aggregate; provided every numeric
quantity value of the validated batch is non-negative, every coerced
quantity, every totalQuantity and every size cell of the final output is
non-negative. The restriction on the non-negativity conjuncts is forced
because the source coercion keeps negative numeric values unchanged. -/
theorem C3_nonneg (l : List VRecord) (info : List (String × String × String)) :
    coerceQty none = 0
    ∧ (∀ n : Int, coerceQty (some n) = n)
    ∧ (∀ r ∈ l, ∃ a ∈ (aggregate_orders l).2, a.key = r.finalSKU)
    ∧ ((∀ r ∈ l, ∀ n : Int, r.quantity = some n → 0 ≤ n) →
        (∀ r ∈ (aggregate_orders l).1, ∃ n, r.quantity = some n ∧ 0 ≤ n)
        ∧ (∀ a ∈ (aggregate_orders l).2, 0 ≤ a.total)
        ∧ (∀ row ∈ (create_final_format (aggregate_orders l).2 info).2,
            ∀ c ∈ row.cells, 0 ≤ c)) := by
  refine ⟨rfl, fun n => rfl, ?_, ?_⟩
  · intro r hr
    rw [aggregate_orders_snd]
    exact ⟨_, List.mem_map_of_mem _
      (sortStr_mem.mpr (List.mem_dedup.mpr (List.mem_map_of_mem _ hr))), rfl⟩
  · intro h
    have hc : ∀ r ∈ l, 0 ≤ coerceQty r.quantity := by
      intro r hr
      cases hq : r.quantity with
      | none => simp [coerceQty]
      | some n => simpa [coerceQty] using h r hr n hq
    have htot : ∀ a ∈ (aggregate_orders l).2, 0 ≤ a.total := by
      intro a ha
      rw [aggregate_orders_snd] at ha
      obtain ⟨k, _, rfl⟩ := List.mem_map.mp ha
      show 0 ≤ ((l.filter (fun r => r.finalSKU = k)).map (fun r => coerceQty r.quantity)).sum
      apply List.sum_nonneg
      intro x hx
      obtain ⟨r, hr, rfl⟩ := List.mem_map.mp hx
      exact hc r (List.mem_of_mem_filter hr)
    refine ⟨?_, htot, ?_⟩
    · intro r hr
      rw [aggregate_orders_fst] at hr
      obtain ⟨r0, hr0, rfl⟩ := List.mem_map.mp hr
      exact ⟨coerceQty r0.quantity, rfl, hc r0 hr0⟩
    · intro row hrow c hcc
      rw [create_final_format_rows] at hrow
      obtain ⟨b, _, rfl⟩ := List.mem_map.mp hrow
      have : c ∈ size_order.map (fun s => cellVal (aggregate_orders l).2 b s) := hcc
      obtain ⟨s, _, rfl⟩ := List.mem_map.mp this
      unfold cellVal
      apply List.sum_nonneg
      intro x hx
      obtain ⟨a, ha, rfl⟩ := List.mem_map.mp hx
      exact htot a (List.mem_of_mem_filter ha)

/-- C3 counterexample: a validated record with the numeric quantity -3 keeps
-3 through coercion, so the aggregate total and the pivot cell sum are -3,
refuting the claimed unconditional non-negativity. -/
theorem C3_counterexample :
    (aggregate_orders
      [{ finalSKU := "A-M", finalSize := "M", status := "OK",
         quantity := some (-3), origStyle := "A", origSize := "M" }]).2
      = [{ key := "A-M", total := -3, size := "M", status := "OK", base := none }]
    ∧ ¬(0 ≤ (-3 : Int))
    ∧ sumAllCells (create_final_format
        [{ key := "A-M", total := -3, size := "M", status := "OK", base := none }] []).2
      = -3 := by
  refine ⟨by decide, by decide, by decide⟩

/-- C3 witness: the amended theorem applied to a batch with quantities 3 and
a missing value yields a non-negative aggregate total for the key A-M. -/
theorem C3_witness :
    0 ≤ ({ key := "A-M", total := 3, size := "M", status := "OK",
           base := none } : ARecord).total := by
  have h := ((C3_nonneg
    [{ finalSKU := "A-M", finalSize := "M", status := "OK",
       quantity := some 3, origStyle := "A", origSize := "M" }] []).2.2.2 (by decide)).2.1
    { key := "A-M", total := 3, size := "M", status := "OK", base := none } (by decide)
  exact h

theorem create_final_format_fst (l : List ARecord) (info : List (String × String × String)) :
    (create_final_format l info).1
      = l.map (fun a => { a with base := some (baseOfKey a.key) }) := rfl

theorem aggregate_base_none (l : List VRecord) :
    ∀ a ∈ (aggregate_orders l).2, a.base = none := by
  intro a ha
  rw [aggregate_orders_snd] at ha
  obtain ⟨k, _, rfl⟩ := List.mem_map.mp ha
  rfl

/-- C5 (amended): aggregation and formatting return fresh collections but
write into their inputs in place. Aggregation leaves its input collection
unchanged exactly when every quantity is already a number (otherwise the
missing or non-numeric quantities are overwritten with 0 in place), and
formatting leaves its aggregated input unchanged exactly when that input is
empty (otherwise a Base SKU column is written into it); the aggregated
collection is empty exactly when the validated batch is. -/
theorem C5_state (l : List VRecord) (info : List (String × String × String)) :
    ((aggregate_orders l).1 = l ↔ ∀ r ∈ l, ∃ n, r.quantity = some n)
    ∧ ((create_final_format (aggregate_orders l).2 info).1 = (aggregate_orders l).2
        ↔ (aggregate_orders l).2 = [])
    ∧ ((aggregate_orders l).2 = [] ↔ l = []) := by
  refine ⟨⟨?_, ?_⟩, ⟨?_, ?_⟩, ⟨?_, ?_⟩⟩
  · intro h r hr
    have he := map_eq_self.mp (aggregate_orders_fst l ▸ h) r hr
    exact ⟨coerceQty r.quantity, (congrArg VRecord.quantity he).symm⟩
  · intro h
    rw [aggregate_orders_fst]
    apply map_eq_self.mpr
    intro r hr
    obtain ⟨n, hn⟩ := h r hr
    cases r
    simp_all [coerceQty]
  · intro hst
    rw [create_final_format_fst] at hst
    by_contra hne
    obtain ⟨a, ha⟩ := List.exists_mem_of_ne_nil _ hne
    have he := map_eq_self.mp hst a ha
    have hb : a.base = none := aggregate_base_none l a ha
    have hcontra : some (baseOfKey a.key) = a.base := congrArg ARecord.base he
    rw [hb] at hcontra
    exact absurd hcontra (by simp)
  · intro h
    rw [h]
    rfl
  · intro h
    rw [aggregate_orders_snd] at h
    have h1 := List.map_eq_nil_iff.mp h
    have h2 : ((l.map (fun r => r.finalSKU)).dedup) = [] := by
      have := congrArg List.length h1
      simpa [sortStr] using List.eq_nil_of_length_eq_zero (by
        simpa [sortStr] using this)
    have h3 := (List.dedup_eq_nil _).mp h2
    exact List.map_eq_nil_iff.mp h3
  · intro h
    rw [h]
    rfl

/-- C5 counterexample: aggregation called on a one-row collection with a
missing quantity hands back a changed input collection, and formatting called
on a one-record aggregated collection hands back a changed input collection,
refuting the claim that no stage modifies its input. -/
theorem C5_counterexample :
    (aggregate_orders
      [{ finalSKU := "A-M", finalSize := "M", status := "OK",
         quantity := none, origStyle := "A", origSize := "M" }]).1
      ≠ [{ finalSKU := "A-M", finalSize := "M", status := "OK",
           quantity := none, origStyle := "A", origSize := "M" }]
    ∧ (create_final_format
        [{ key := "A-M", total := 3, size := "M", status := "OK", base := none }] []).1
      ≠ [{ key := "A-M", total := 3, size := "M", status := "OK", base := none }] := by
  refine ⟨by decide, by decide⟩

/-- C5 witness: on a batch whose only quantity is already numeric, the
aggregation stage returns its input collection unchanged. -/
theorem C5_witness :
    (aggregate_orders
      [{ finalSKU := "A-M", finalSize := "M", status := "OK",
         quantity := some 3, origStyle := "A", origSize := "M" }]).1
      = [{ finalSKU := "A-M", finalSize := "M", status := "OK",
           quantity := some 3, origStyle := "A", origSize := "M" }] := by
  exact ((C5_state
    [{ finalSKU := "A-M", finalSize := "M", status := "OK",
       quantity := some 3, origStyle := "A", origSize := "M" }] []).1).mpr
    (by intro r hr; rw [List.mem_singleton] at hr; subst hr; exact ⟨3, rfl⟩)

/-- C7: aggregation groups the validated records by their final SKU; each
output record sums the coerced quantities of its group, is flagged REVIEW
exactly when some member is, and carries the size of the first member; the key
sequence is strictly ascending in code-point lexicographic order and covers
exactly the keys present in the input; the two rows of the worked example
collapse to a single OK record with total 8. -/
theorem C7_aggregate :
    (∀ l : List VRecord,
      List.Sorted strLe (((aggregate_orders l).2).map (fun a => a.key))
      ∧ (((aggregate_orders l).2).map (fun a => a.key)).Nodup
      ∧ (∀ k, k ∈ ((aggregate_orders l).2).map (fun a => a.key) ↔ ∃ r ∈ l, r.finalSKU = k)
      ∧ (∀ a ∈ (aggregate_orders l).2,
          a.total = ((l.filter (fun r => r.finalSKU = a.key)).map
              (fun r => coerceQty r.quantity)).sum
          ∧ a.status = (if (l.filter (fun r => r.finalSKU = a.key)).any
              (fun r => r.status = "REVIEW") then "REVIEW" else "OK")
          ∧ a.size = (((l.filter (fun r => r.finalSKU = a.key)).head?).map
              (fun r => r.finalSize)).getD ""))
    ∧ (aggregate_orders (validate_and_correct_data
        [{ vendorStyle := "TEE-101", size := "M", quantity := some 3,
           concatenatedSku := "TEE-101-M" },
         { vendorStyle := "TEE-101", size := "Medium", quantity := some 5,
           concatenatedSku := "TEE-101-Medium" }])).2
      = [{ key := "TEE-101-M", total := 8, size := "M", status := "OK", base := none }] := by
  refine ⟨?_, by decide⟩
  intro l
  have hkeys : ((aggregate_orders l).2).map (fun a => a.key)
      = sortStr ((l.map (fun r => r.finalSKU)).dedup) := by
    rw [aggregate_orders_snd, List.map_map]
    exact List.map_id _
  refine ⟨?_, ?_, ?_, ?_⟩
  · rw [hkeys]
    exact sortStr_sorted _
  · rw [hkeys]
    exact sortStr_nodup (List.nodup_dedup _)
  · intro k
    rw [hkeys]
    constructor
    · intro hk
      have := List.mem_dedup.mp (sortStr_mem.mp hk)
      obtain ⟨r, hr, rfl⟩ := List.mem_map.mp this
      exact ⟨r, hr, rfl⟩
    · rintro ⟨r, hr, rfl⟩
      exact sortStr_mem.mpr (List.mem_dedup.mpr (List.mem_map_of_mem _ hr))
  · intro a ha
    rw [aggregate_orders_snd] at ha
    obtain ⟨k, _, rfl⟩ := List.mem_map.mp ha
    exact ⟨rfl, rfl, rfl⟩

/-- C7 witness: the per-group equations of the theorem instantiated at the
two-row worked example and its single output record. -/
theorem C7_witness :
    ({ key := "TEE-101-M", total := 8, size := "M", status := "OK",
       base := none } : ARecord).total
      = (((validate_and_correct_data
          [{ vendorStyle := "TEE-101", size := "M", quantity := some 3,
             concatenatedSku := "TEE-101-M" },
           { vendorStyle := "TEE-101", size := "Medium", quantity := some 5,
             concatenatedSku := "TEE-101-Medium" }]).filter
            (fun r => r.finalSKU = "TEE-101-M")).map
          (fun r => coerceQty r.quantity)).sum := by
  have h := (C7_aggregate.1 (validate_and_correct_data
      [{ vendorStyle := "TEE-101", size := "M", quantity := some 3,
         concatenatedSku := "TEE-101-M" },
       { vendorStyle := "TEE-101", size := "Medium", quantity := some 5,
         concatenatedSku := "TEE-101-Medium" }])).2.2.2
    { key := "TEE-101-M", total := 8, size := "M", status := "OK", base := none } (by decide)
  exact h.1

/-- C2 (amended): two validated records of the same batch that both carry
status OK and a non-empty vendor style and whose rebuilt composite keys are
equal have equal finalSize values. The OK restriction is forced: two REVIEW
records can share a key while holding different fallback sizes, because a
fallback size may itself hold a dash. The non-empty-style restriction is
forced because an empty style makes the source reuse the original
concatenated SKU instead of rebuilding the key. -/
theorem C2_key_determines_size (rows : List SkuRow) (v1 v2 : VRecord)
    (h1 : v1 ∈ validate_and_correct_data rows) (h2 : v2 ∈ validate_and_correct_data rows)
    (ho1 : v1.status = "OK") (ho2 : v2.status = "OK")
    (hs1 : v1.origStyle ≠ "") (hs2 : v2.origStyle ≠ "")
    (hk : v1.finalSKU = v2.finalSKU) : v1.finalSize = v2.finalSize := by
  unfold validate_and_correct_data at h1 h2
  obtain ⟨r1, hr1, rfl⟩ := List.mem_map.mp h1
  obtain ⟨r2, hr2, rfl⟩ := List.mem_map.mp h2
  dsimp only at ho1 ho2 hs1 hs2 hk ⊢
  rw [if_pos hs1, if_pos hs2] at hk
  exact string_dash_inj (size_order_noDash _ (validate_row_ok_mem ho1))
    (size_order_noDash _ (validate_row_ok_mem ho2)) hk

/-- C2 counterexample: the batch rows (style A-x, size y) and (style A, size
x-y) both validate to the rebuilt composite key A-x-y, yet their finalSize
values y and x-y differ, and swapping the two rows changes the size field of
the aggregate, refuting the claim. -/
theorem C2_counterexample :
    concatenate_sku_size
      { columns := ["Vendor Style", "Size", "Quantity"],
        rows := [{ vendorStyle := "A-x", size := "y", quantity := some 1 },
                 { vendorStyle := "A", size := "x-y", quantity := some 2 }] }
      = .ok [{ vendorStyle := "A-x", size := "y", quantity := some 1,
               concatenatedSku := "A-x-y" },
             { vendorStyle := "A", size := "x-y", quantity := some 2,
               concatenatedSku := "A-x-y" }]
    ∧ validate_and_correct_data
        [{ vendorStyle := "A-x", size := "y", quantity := some 1,
           concatenatedSku := "A-x-y" },
         { vendorStyle := "A", size := "x-y", quantity := some 2,
           concatenatedSku := "A-x-y" }]
      = [{ finalSKU := "A-x-y", finalSize := "y", status := "REVIEW",
           quantity := some 1, origStyle := "A-x", origSize := "y" },
         { finalSKU := "A-x-y", finalSize := "x-y", status := "REVIEW",
           quantity := some 2, origStyle := "A", origSize := "x-y" }]
    ∧ ("y" : String) ≠ "x-y"
    ∧ (aggregate_orders
        [{ finalSKU := "A-x-y", finalSize := "y", status := "REVIEW",
           quantity := some 1, origStyle := "A-x", origSize := "y" },
         { finalSKU := "A-x-y", finalSize := "x-y", status := "REVIEW",
           quantity := some 2, origStyle := "A", origSize := "x-y" }]).2
      ≠ (aggregate_orders
        [{ finalSKU := "A-x-y", finalSize := "x-y", status := "REVIEW",
           quantity := some 2, origStyle := "A", origSize := "x-y" },
         { finalSKU := "A-x-y", finalSize := "y", status := "REVIEW",
           quantity := some 1, origStyle := "A-x", origSize := "y" }]).2 := by
  refine ⟨rfl, by decide, by decide, by decide⟩

/-- C2 witness: the amended theorem applied to the two-spellings batch, whose
records share the key TEE-101-M with status OK, yields equal finalSizes. -/
theorem C2_witness :
    ({ finalSKU := "TEE-101-M", finalSize := "M", status := "OK", quantity := some 1,
       origStyle := "TEE-101", origSize := "M" } : VRecord).finalSize
      = ({ finalSKU := "TEE-101-M", finalSize := "M", status := "OK", quantity := some 2,
           origStyle := "TEE-101", origSize := "Medium" } : VRecord).finalSize := by
  exact C2_key_determines_size
    [{ vendorStyle := "TEE-101", size := "M", quantity := some 1,
       concatenatedSku := "TEE-101-M" },
     { vendorStyle := "TEE-101", size := "Medium", quantity := some 2,
       concatenatedSku := "TEE-101-Medium" }]
    _ _ (by decide) (by decide) (by decide) (by decide) (by decide) (by decide) (by decide)

/-- C4 (amended): when the direct match, the variant lookup and the digit-XL
pattern all fail on a non-empty input, an input whose stripped lowercase form
holds the substring xxl or 2xl normalizes to 2XL, and one that holds xxxl or
3xl normalizes to 3XL only when the first test does not fire; the source runs
the 2XL test first, and every string holding xxxl also holds xxl. -/
theorem C4_substring (s : String) (hne : s ≠ "")
    (hdirect : pyUpper (pyStrip s) ∉ canonicalKeys)
    (hvar : SIZE_LOOKUP (pyLower (pyStrip s)) = none)
    (hdig : digitXL (pyLower (pyStrip s)) = none) :
    ((containsSub ("xxl".data) (pyLower (pyStrip s)).data
        || containsSub ("2xl".data) (pyLower (pyStrip s)).data) = true →
      normalize_size s = some "2XL")
    ∧ ((containsSub ("xxl".data) (pyLower (pyStrip s)).data
        || containsSub ("2xl".data) (pyLower (pyStrip s)).data) = false →
      (containsSub ("xxxl".data) (pyLower (pyStrip s)).data
        || containsSub ("3xl".data) (pyLower (pyStrip s)).data) = true →
      normalize_size s = some "3XL") := by
  have hn : normalize_size s = substringHeuristic (pyLower (pyStrip s)) := by
    unfold normalize_size
    dsimp only
    rw [if_neg hne, if_neg hdirect, hvar, hdig]
  constructor
  · intro h2
    rw [hn]
    unfold substringHeuristic
    rw [if_pos h2]
  · intro h2 h3
    rw [hn]
    unfold substringHeuristic
    rw [if_neg (by simp [h2]), if_pos h3]

/-- C4 counterexample: the input sxxxl defeats the direct match, the variant
lookup and the digit-XL pattern, holds the substring xxxl, yet normalizes to
2XL rather than the claimed 3XL, because the 2XL substring test runs first
and xxl occurs inside xxxl. -/
theorem C4_counterexample :
    pyUpper (pyStrip "sxxxl") ∉ canonicalKeys
    ∧ SIZE_LOOKUP (pyLower (pyStrip "sxxxl")) = none
    ∧ digitXL (pyLower (pyStrip "sxxxl")) = none
    ∧ containsSub ("xxxl".data) (pyLower (pyStrip "sxxxl")).data = true
    ∧ normalize_size "sxxxl" = some "2XL"
    ∧ normalize_size "sxxxl" ≠ some "3XL" := by
  refine ⟨by decide, by decide, by decide, by decide, by decide, by decide⟩

/-- C4 witness: the amended theorem applied to my2xl yields 2XL and applied
to a3xl yields 3XL. -/
theorem C4_witness :
    normalize_size "my2xl" = some "2XL" ∧ normalize_size "a3xl" = some "3XL" := by
  constructor
  · exact (C4_substring "my2xl" (by decide) (by decide) (by decide) (by decide)).1 (by decide)
  · exact (C4_substring "a3xl" (by decide) (by decide) (by decide) (by decide)).2
      (by decide) (by decide)

/-- C6: row resolution is first success wins: a size the normalizer resolves
is returned with status OK; otherwise a size recovered from the composite key
is returned with status OK; otherwise the original text, or the literal
UNKNOWN when it is empty, is returned with status REVIEW. -/
theorem C6_resolve (os k : String) :
    (∀ c, normalize_size os = some c → validate_and_correct_row os k = (c, "OK"))
    ∧ (normalize_size os = none →
        ∀ c, extract_size_from_sku k = some c → validate_and_correct_row os k = (c, "OK"))
    ∧ (normalize_size os = none → extract_size_from_sku k = none →
        validate_and_correct_row os k = (if os ≠ "" then os else "UNKNOWN", "REVIEW")) :=
  ⟨fun _ hc => validate_row_eq_of_normalize hc,
   fun hn _ hc => validate_row_eq_of_extract hn hc,
   fun hn he => validate_row_eq_of_fail hn he⟩

/-- C6 witness: the theorem applied to the two spec examples: a blank size
with key TEE-101-L recovers (L, OK), and purple with key TEE-101-purple is
preserved as (purple, REVIEW). -/
theorem C6_witness :
    validate_and_correct_row "" "TEE-101-L" = ("L", "OK")
    ∧ validate_and_correct_row "purple" "TEE-101-purple" = ("purple", "REVIEW") := by
  constructor
  · exact (C6_resolve "" "TEE-101-L").2.1 (by decide) "L" (by decide)
  · have h := (C6_resolve "purple" "TEE-101-purple").2.2 (by decide) (by decide)
    simpa using h

/-- C9: the identifier-building step fails the whole batch, independently of
its rows, exactly when the Vendor Style or Size column is absent, with an
error that lists precisely the missing columns; when both columns are present
it returns the extended rows and never fails. -/
theorem C9_required_columns (cols : List String) (rows rows2 : List InputRow) :
    (required_cols.filter (fun c => !(decide (c ∈ cols))) ≠ [] ↔
      "Vendor Style" ∉ cols ∨ "Size" ∉ cols)
    ∧ (required_cols.filter (fun c => !(decide (c ∈ cols))) ≠ [] →
        concatenate_sku_size { columns := cols, rows := rows }
          = .error (missingColsMsg (required_cols.filter (fun c => !(decide (c ∈ cols)))))
        ∧ concatenate_sku_size { columns := cols, rows := rows }
          = concatenate_sku_size { columns := cols, rows := rows2 })
    ∧ (required_cols.filter (fun c => !(decide (c ∈ cols))) = [] →
        concatenate_sku_size { columns := cols, rows := rows }
          = .ok (rows.map (fun r =>
              { vendorStyle := r.vendorStyle, size := r.size, quantity := r.quantity,
                concatenatedSku := r.vendorStyle ++ "-" ++ r.size }))) := by
  refine ⟨?_, ?_, ?_⟩
  · by_cases h1 : "Vendor Style" ∈ cols <;> by_cases h2 : "Size" ∈ cols <;>
      simp [required_cols, h1, h2]
  · intro hne
    have hemp : (required_cols.filter (fun c => !(decide (c ∈ cols)))).isEmpty = false := by
      cases hc : required_cols.filter (fun c => !(decide (c ∈ cols))) with
      | nil => exact absurd hc hne
      | cons a t => rfl
    constructor
    · unfold concatenate_sku_size
      dsimp only
      rw [hemp]
      rfl
    · unfold concatenate_sku_size
      dsimp only
      rw [hemp]
      rfl
  · intro hnil
    have hemp : (required_cols.filter (fun c => !(decide (c ∈ cols)))).isEmpty = true := by
      rw [hnil]
      rfl
    unfold concatenate_sku_size
    dsimp only
    rw [hemp]
    rfl

/-- C9 witness: a batch missing the Size column fails with an error naming
exactly that column, and a batch with both required columns succeeds. -/
theorem C9_witness :
    concatenate_sku_size { columns := ["Vendor Style"], rows := [] }
      = .error (missingColsMsg ["Size"])
    ∧ concatenate_sku_size
        { columns := ["Vendor Style", "Size"],
          rows := [{ vendorStyle := "TEE", size := "M", quantity := some 1 }] }
      = .ok [{ vendorStyle := "TEE", size := "M", quantity := some 1,
               concatenatedSku := "TEE-M" }] := by
  constructor
  · have h := ((C9_required_columns ["Vendor Style"] [] []).2.1 (by decide)).1
    have e : required_cols.filter
        (fun c => !(decide (c ∈ (["Vendor Style"] : List String)))) = ["Size"] := by decide
    rw [e] at h
    exact h
  · have h := (C9_required_columns ["Vendor Style", "Size"]
      [{ vendorStyle := "TEE", size := "M", quantity := some 1 }] []).2.2 (by decide)
    simpa using h

/-- C10: a row that validates with status OK always carries one of the eight
canonical size tokens as its finalSize; a non-canonical finalSize, the
literal UNKNOWN included, occurs only with status REVIEW. -/
theorem C10_ok_canonical (os k : String) :
    ((validate_and_correct_row os k).2 = "OK" → (validate_and_correct_row os k).1 ∈ size_order)
    ∧ ("UNKNOWN" : String) ∉ size_order
    ∧ ((validate_and_correct_row os k).1 ∉ size_order →
        (validate_and_correct_row os k).2 = "REVIEW") := by
  refine ⟨fun h => validate_row_ok_mem h, by decide, fun h => ?_⟩
  rcases validate_row_status os k with hok | hrev
  · exact absurd (validate_row_ok_mem hok) h
  · exact hrev

/-- C10 witness: the theorem applied to the input Medium, whose resolution
succeeds with status OK, places the finalSize among the canonical tokens. -/
theorem C10_witness :
    (validate_and_correct_row "Medium" "X").1 ∈ size_order :=
  (C10_ok_canonical "Medium" "X").1 (by decide)
